import Mathlib

/-!
Verification of the adventure parser module (src/adventure.py).

The module contains four operations:
* `load_artifact_data`   - reads the "Main Chamber" sheet from a workbook, skipping 3 rows;
* `load_location_notes`  - reads a tab-separated file into a table;
* `extract_journal_dates` - `re.findall(r"\d{2}/\d{2}/\d{4}", text)` followed by a
  `datetime.strptime(d, "%m/%d/%Y")` filtering pass that silently drops candidates
  raising `ValueError`;
* `extract_secret_codes` - `re.findall(r"AZMAR-\d{3}", text)`.

Text is embedded as `List Char` (ASCII digits; `Char.isDigit` plays the role of `\d`).
Both regular expressions are fixed-width with no alternation, so Python's scan -
leftmost match, emit, resume after the match, otherwise advance one position -
is embedded directly as `re_findall` below.  `strptime` is embedded as an
`Option`-valued parser (`none` corresponds to `ValueError`): month 1-12,
day 1..days-in-month with Gregorian leap years, year 1-9999 (`datetime.MINYEAR`
to `MAXYEAR`).  The pandas I/O layer is not part of src/, so it is modelled from
the spec where a claim needs it.
-/

namespace Adventure

/-- The left-to-right non-overlapping scan of a fixed-width pattern, with explicit
fuel to make the recursion structural.  `k` is the width of the pattern, `p`
decides whether the next `k` characters match (it must reject lists shorter
than `k`).  On a match the scan emits it and resumes after it; otherwise it
advances one character, exactly like Python's `re` engine for a fixed-width
pattern with no alternation. -/
def scanAux (k : Nat) (p : List Char → Bool) : Nat → List Char → List (List Char)
  | 0, _ => []
  | _ + 1, [] => []
  | fuel + 1, c :: cs =>
    if p ((c :: cs).take k) then
      (c :: cs).take k :: scanAux k p fuel (cs.drop (k - 1))
    else
      scanAux k p fuel cs

/-- `re.findall` for a fixed-width pattern of width `k`. -/
def re_findall (k : Nat) (p : List Char → Bool) (l : List Char) : List (List Char) :=
  scanAux k p l.length l

/-- The surface pattern `\d{2}/\d{2}/\d{4}` (width 10). -/
def isDatePat : List Char → Bool
  | [m1, m2, s1, d1, d2, s2, y1, y2, y3, y4] =>
    m1.isDigit && m2.isDigit && s1 = '/' && d1.isDigit && d2.isDigit && s2 = '/' &&
      y1.isDigit && y2.isDigit && y3.isDigit && y4.isDigit
  | _ => false

/-- The surface pattern `AZMAR-\d{3}` (width 9). -/
def isCodePat : List Char → Bool
  | ['A', 'Z', 'M', 'A', 'R', '-', a, b, c] => a.isDigit && b.isDigit && c.isDigit
  | _ => false

/-- Numeric value of two decimal digit characters. -/
def num2 (a b : Char) : Nat := 10 * (a.toNat - 48) + (b.toNat - 48)

/-- Numeric value of four decimal digit characters. -/
def num4 (a b c d : Char) : Nat :=
  1000 * (a.toNat - 48) + 100 * (b.toNat - 48) + 10 * (c.toNat - 48) + (d.toNat - 48)

/-- Gregorian leap-year rule, as used by Python's `datetime`. -/
def isLeapYear (y : Nat) : Bool := y % 4 == 0 && (y % 100 != 0 || y % 400 == 0)

/-- Number of days of month `m` in year `y` (Gregorian), as used by Python's
`datetime`; 0 for an out-of-range month. -/
def daysInMonth (m y : Nat) : Nat :=
  if m = 1 then 31
  else if m = 2 then (if isLeapYear y then 29 else 28)
  else if m = 3 then 31
  else if m = 4 then 30
  else if m = 5 then 31
  else if m = 6 then 30
  else if m = 7 then 31
  else if m = 8 then 31
  else if m = 9 then 30
  else if m = 10 then 31
  else if m = 11 then 30
  else if m = 12 then 31
  else 0

/-- `datetime.datetime.strptime(t, "%m/%d/%Y")` on a 10-character candidate:
`some (month, day, year)` on success, `none` where Python raises `ValueError`.
Requires month 1-12, day valid for the month and year (Gregorian, proleptic),
and year within `datetime`'s 1-9999 range. -/
def strptime_mdY (t : List Char) : Option (Nat × Nat × Nat) :=
  match t with
  | [m1, m2, s1, d1, d2, s2, y1, y2, y3, y4] =>
    if m1.isDigit && m2.isDigit && s1 = '/' && d1.isDigit && d2.isDigit && s2 = '/' &&
        y1.isDigit && y2.isDigit && y3.isDigit && y4.isDigit then
      let m := num2 m1 m2
      let d := num2 d1 d2
      let y := num4 y1 y2 y3 y4
      if 1 ≤ m ∧ m ≤ 12 ∧ 1 ≤ y ∧ y ≤ 9999 ∧ 1 ≤ d ∧ d ≤ daysInMonth m y then
        some (m, d, y)
      else none
    else none
  | _ => none

/-- The raw matches of `re.findall(r"\d{2}/\d{2}/\d{4}", journal_text)`
(local variable `found_dates` in src/adventure.py line 49). -/
def found_dates (journal_text : List Char) : List (List Char) :=
  re_findall 10 isDatePat journal_text

/-- `extract_journal_dates` (src/adventure.py lines 38-57): find all candidates
matching `\d{2}/\d{2}/\d{4}`, then keep, in order, those for which `strptime`
succeeds; a `ValueError` is caught and the candidate skipped. -/
def extract_journal_dates (journal_text : List Char) : List (List Char) :=
  (found_dates journal_text).foldl
    (fun valid_dates d =>
      match strptime_mdY d with
      | some _ => valid_dates ++ [d]
      | none => valid_dates)
    []

/-- `extract_secret_codes` (src/adventure.py lines 59-71):
`re.findall(r"AZMAR-\d{3}", journal_text)`. -/
def extract_secret_codes (journal_text : List Char) : List (List Char) :=
  re_findall 9 isCodePat journal_text

/-- Month field of a 10-character date candidate (0 on a malformed list). -/
def monthOf : List Char → Nat
  | m1 :: m2 :: _ => num2 m1 m2
  | _ => 0

/-- Day field of a 10-character date candidate (0 on a malformed list). -/
def dayOf : List Char → Nat
  | _ :: _ :: _ :: d1 :: d2 :: _ => num2 d1 d2
  | _ => 0

/-- Year field of a 10-character date candidate (0 on a malformed list). -/
def yearOf : List Char → Nat
  | _ :: _ :: _ :: _ :: _ :: _ :: y1 :: y2 :: y3 :: y4 :: _ => num4 y1 y2 y3 y4
  | _ => 0

/-- Interleave gap text with matched tokens: `glue [g0, g1, ..., gn] [m0, ..., m(n-1)]`
is `g0 ++ m0 ++ g1 ++ m1 ++ ... ++ gn`.  Used to state that the tokens returned by a
scan occur in the input, in order, without overlap. -/
def glue : List (List Char) → List (List Char) → List Char
  | [], _ => []
  | g :: _, [] => g
  | g :: gs, m :: ms => g ++ m ++ glue gs ms

/-- Two successive invocations of the date extractor on the same text. -/
def runDatesTwice (s : List Char) : List (List Char) × List (List Char) :=
  (extract_journal_dates s, extract_journal_dates s)

/-- Two successive invocations of the code extractor on the same text. -/
def runCodesTwice (s : List Char) : List (List Char) × List (List Char) :=
  (extract_secret_codes s, extract_secret_codes s)

/- ### Model of the pandas I/O layer

The loaders delegate to `pandas.read_excel` and `pandas.read_csv`, whose code is
not part of src/; the definitions below model the behavior the spec ascribes to
them (spec 4.1, 4.2, 7). -/

/-- A loaded table: a header row of column names and the data rows, all cells as
raw text (the spec leaves per-column type inference as a deterministic policy
orthogonal to the claims verified here). -/
structure Table where
  header : List (List Char)
  rows : List (List (List Char))
deriving DecidableEq

/-- Contents of a file: plain text, or a spreadsheet workbook made of named
sheets, each sheet an ordered list of rows of cells. -/
inductive FileData
  | text (content : List Char)
  | workbook (sheets : List (String × List (List (List Char))))

/-- A filesystem: a partial map from paths to file contents. -/
def FS : Type := String → Option FileData

/-- Errors of the loading layer (spec 7): missing path, missing sheet, or a
file that cannot be parsed under the expected schema. -/
inductive PdError
  | fileNotFound (path : String)
  | sheetNotFound (sheet : String)
  | malformedSource
deriving DecidableEq

/-- Split a character list on every occurrence of `sep`; a separator is always a
field boundary (no quoting or escaping). -/
def splitOnChar (sep : Char) : List Char → List (List Char)
  | [] => [[]]
  | c :: cs =>
    if c = sep then
      [] :: splitOnChar sep cs
    else
      match splitOnChar sep cs with
      | [] => [[c]]
      | f :: fs => (c :: f) :: fs

/-- Rejoin fields with `sep`; inverse of `splitOnChar`. -/
def joinOnChar (sep : Char) : List (List Char) → List Char
  | [] => []
  | [f] => f
  | f :: g :: fs => f ++ sep :: joinOnChar sep (g :: fs)

/-- Modelled from the spec: `pandas.read_csv(path, sep='\t')` (spec 4.2) on text
already in memory — first line is the column header, every subsequent line is a
data row split on the tab character. -/
def parseTSV (content : List Char) : Table :=
  match splitOnChar '\n' content with
  | [] => ⟨[], []⟩
  | h :: rest => ⟨splitOnChar '\t' h, rest.map (splitOnChar '\t')⟩

/-- First sheet whose name equals `name` exactly (case-sensitive). -/
def findSheet (name : String) :
    List (String × List (List (List Char))) → Option (List (List (List Char)))
  | [] => none
  | (n, rs) :: rest => if n = name then some rs else findSheet name rest

/-- Modelled from the spec: `pandas.read_csv(path, sep='\t')` (spec 4.2, 7) —
raises `FileNotFound` when the path does not exist, `MalformedSource` when the
file is not parseable as delimited text, and otherwise parses tab-delimited
records. -/
def pd_read_csv_tab (fs : FS) (path : String) : Except PdError Table :=
  match fs path with
  | none => .error (.fileNotFound path)
  | some (.text content) => .ok (parseTSV content)
  | some (.workbook _) => .error .malformedSource

/-- Modelled from the spec: `pandas.read_excel(path, sheet_name, skiprows)`
(spec 4.1, 7) — raises `FileNotFound` when the path does not exist,
`SheetNotFound` when no sheet has the requested name (exact, case-sensitive),
`MalformedSource` when the file is not a workbook; otherwise discards the first
`skiprows` rows of the selected sheet, takes the next row as the column header,
and returns all subsequent rows as data rows. -/
def pd_read_excel (fs : FS) (path : String) (sheet_name : String) (skiprows : Nat) :
    Except PdError Table :=
  match fs path with
  | none => .error (.fileNotFound path)
  | some (.text _) => .error .malformedSource
  | some (.workbook sheets) =>
    match findSheet sheet_name sheets with
    | none => .error (.sheetNotFound sheet_name)
    | some rows =>
      match rows.drop skiprows with
      | [] => .ok ⟨[], []⟩
      | h :: rest => .ok ⟨h, rest⟩

/-- `load_artifact_data` (src/adventure.py lines 11-23):
`pd.read_excel(excel_filepath, sheet_name="Main Chamber", skiprows=3)`. -/
def load_artifact_data (fs : FS) (excel_filepath : String) : Except PdError Table :=
  pd_read_excel fs excel_filepath "Main Chamber" 3

/-- `load_location_notes` (src/adventure.py lines 25-36):
`pd.read_csv(tsv_filepath, sep='\t')`. -/
def load_location_notes (fs : FS) (tsv_filepath : String) : Except PdError Table :=
  pd_read_csv_tab fs tsv_filepath

/-- Concrete filesystem fixture: the spec's well-formed tab-separated file. -/
def fsTSV : FS := fun p =>
  if p = "locations.tsv" then some (.text "name\tx\ty\nCave\t1\t2".toList) else none

/-- Concrete sheet fixture: three metadata rows, a header row, one data row. -/
def mainChamberRows : List (List (List Char)) :=
  [["meta1".toList], ["meta2".toList], ["meta3".toList],
   ["name".toList, "age".toList],
   ["idol".toList, "3000".toList]]

/-- Concrete filesystem fixture: a workbook with a decoy sheet and the
"Main Chamber" sheet. -/
def fsXLSX : FS := fun p =>
  if p = "artifacts.xlsx" then
    some (.workbook [("Lobby", []), ("Main Chamber", mainChamberRows)])
  else none

/- Basic lemmas about the scan. -/

theorem scanAux_fuel_irrel (k : Nat) (p : List Char → Bool) :
    ∀ f1 f2 l, l.length ≤ f1 → l.length ≤ f2 →
      scanAux k p f1 l = scanAux k p f2 l := by
  intro f1
  induction f1 with
  | zero =>
    intro f2 l h1 _
    have : l = [] := List.eq_nil_of_length_eq_zero (Nat.le_zero.mp h1)
    subst this
    cases f2 <;> simp [scanAux]
  | succ f1 ih =>
    intro f2 l h1 h2
    cases l with
    | nil => cases f2 <;> simp [scanAux]
    | cons c cs =>
      cases f2 with
      | zero => simp at h2
      | succ f2 =>
        simp only [scanAux]
        by_cases hp : p ((c :: cs).take k)
        · simp only [hp, if_pos]
          have hd : (cs.drop (k - 1)).length ≤ cs.length := by
            simp [List.length_drop]
          have hlen : cs.length ≤ f1 := by simpa using h1
          have hlen2 : cs.length ≤ f2 := by simpa using h2
          rw [ih f2 (cs.drop (k - 1)) (le_trans hd hlen) (le_trans hd hlen2)]
        · simp only [hp, if_neg, not_false_iff]
          exact ih f2 cs (by simpa using h1) (by simpa using h2)

theorem re_findall_nil (k : Nat) (p : List Char → Bool) : re_findall k p [] = [] := rfl

theorem re_findall_cons (k : Nat) (p : List Char → Bool) (c : Char) (cs : List Char) :
    re_findall k p (c :: cs) =
      if p ((c :: cs).take k) then
        (c :: cs).take k :: re_findall k p (cs.drop (k - 1))
      else
        re_findall k p cs := by
  show scanAux k p (cs.length + 1) (c :: cs) = _
  simp only [scanAux]
  by_cases hp : p ((c :: cs).take k)
  · simp only [hp, if_pos]
    rw [scanAux_fuel_irrel k p cs.length (cs.drop (k - 1)).length (cs.drop (k - 1))
      (by simp [List.length_drop]) le_rfl]
    rfl
  · simp only [hp, if_neg, not_false_iff]
    rfl

/-- Every token emitted by the scan satisfies the pattern predicate. -/
theorem mem_scanAux (k : Nat) (p : List Char → Bool) :
    ∀ fuel l t, t ∈ scanAux k p fuel l → p t = true := by
  intro fuel
  induction fuel with
  | zero => intro l t h; simp [scanAux] at h
  | succ fuel ih =>
    intro l t h
    cases l with
    | nil => simp [scanAux] at h
    | cons c cs =>
      simp only [scanAux] at h
      by_cases hp : p ((c :: cs).take k)
      · rw [if_pos hp] at h
        rcases List.mem_cons.mp h with h | h
        · subst h; exact hp
        · exact ih _ t h
      · rw [if_neg hp] at h
        exact ih _ t h

theorem mem_re_findall (k : Nat) (p : List Char → Bool) (l t : List Char)
    (h : t ∈ re_findall k p l) : p t = true :=
  mem_scanAux k p l.length l t h

/-- The validation fold of `extract_journal_dates` is a filter. -/
theorem foldl_validation (l acc : List (List Char)) :
    l.foldl
        (fun valid_dates d =>
          match strptime_mdY d with
          | some _ => valid_dates ++ [d]
          | none => valid_dates)
        acc
      = acc ++ l.filter (fun d => (strptime_mdY d).isSome) := by
  induction l generalizing acc with
  | nil => simp
  | cons d l ih =>
    cases h : strptime_mdY d with
    | none => simp [List.foldl_cons, List.filter_cons, h, ih]
    | some r => simp [List.foldl_cons, List.filter_cons, h, ih]

theorem extract_eq_filter (s : List Char) :
    extract_journal_dates s =
      (found_dates s).filter (fun d => (strptime_mdY d).isSome) := by
  unfold extract_journal_dates
  rw [foldl_validation]
  simp

/-- Counting occurrences in a filtered list. -/
theorem count_filter_eq (p : List Char → Bool) (t : List Char) :
    ∀ l : List (List Char),
      List.count t (l.filter p) = if p t then List.count t l else 0 := by
  intro l
  induction l with
  | nil => simp
  | cons a l ih =>
    by_cases hat : a = t
    · subst hat
      by_cases hpa : p a
      · simp [List.filter_cons, hpa, List.count_cons, ih]
      · simp [List.filter_cons, hpa, List.count_cons, ih]
    · by_cases hpa : p a
      · simp [List.filter_cons, hpa, List.count_cons, ih, hat]
      · simp [List.filter_cons, hpa, List.count_cons, ih, hat]

/-- A candidate accepted by `strptime` has its fields in calendar range. -/
theorem strptime_isSome_bounds (t : List Char) (h : (strptime_mdY t).isSome = true) :
    1 ≤ monthOf t ∧ monthOf t ≤ 12 ∧
    1 ≤ dayOf t ∧ dayOf t ≤ daysInMonth (monthOf t) (yearOf t) ∧
    1 ≤ yearOf t ∧ yearOf t ≤ 9999 := by
  unfold strptime_mdY at h
  split at h
  case _ m1 m2 s1 d1 d2 s2 y1 y2 y3 y4 =>
    split at h
    · dsimp only at h
      split at h
      · next hb =>
        simp only [monthOf, dayOf, yearOf]
        exact ⟨hb.1, hb.2.1, hb.2.2.2.2.1, hb.2.2.2.2.2, hb.2.2.1, hb.2.2.2.1⟩
      · simp at h
    · simp at h
  case _ => simp at h

/-- A string matching the date surface pattern has length 10. -/
theorem isDatePat_length (t : List Char) (h : isDatePat t = true) : t.length = 10 := by
  unfold isDatePat at h
  split at h
  · simp_all
  · simp at h

/-- A string matching the code surface pattern has length 9. -/
theorem isCodePat_length (t : List Char) (h : isCodePat t = true) : t.length = 9 := by
  unfold isCodePat at h
  split at h
  · simp_all
  · simp at h

theorem glue_cons_char (c : Char) (g : List Char) (gs ms : List (List Char)) :
    glue ((c :: g) :: gs) ms = c :: glue (g :: gs) ms := by
  cases ms <;> simp [glue]

/-- The tokens emitted by the scan occur in the input, in order, without
overlap: the input is the interleaving of gap text with the emitted tokens. -/
theorem scanAux_decomp (k : Nat) (p : List Char → Bool) (hk : 1 ≤ k)
    (hp : ∀ t, p t = true → t.length = k) :
    ∀ fuel l, l.length ≤ fuel →
      ∃ gaps : List (List Char),
        gaps.length = (scanAux k p fuel l).length + 1 ∧
        glue gaps (scanAux k p fuel l) = l := by
  intro fuel
  induction fuel with
  | zero =>
    intro l hl
    have hnil : l = [] := List.eq_nil_of_length_eq_zero (Nat.le_zero.mp hl)
    subst hnil
    exact ⟨[[]], by simp [scanAux, glue]⟩
  | succ fuel ih =>
    intro l hl
    cases l with
    | nil => exact ⟨[[]], by simp [scanAux, glue]⟩
    | cons c cs =>
      have hcs : cs.length ≤ fuel := by
        simp only [List.length_cons] at hl
        omega
      by_cases hpc : p ((c :: cs).take k)
      · obtain ⟨gaps, hg1, hg2⟩ := ih (cs.drop (k - 1))
          (by simp only [List.length_drop]; omega)
        refine ⟨[] :: gaps, ?_, ?_⟩
        · simp only [scanAux]
          rw [if_pos hpc]
          simpa using hg1
        · simp only [scanAux]
          rw [if_pos hpc]
          show [] ++ (c :: cs).take k ++ glue gaps (scanAux k p fuel (cs.drop (k - 1))) = c :: cs
          rw [hg2, List.nil_append]
          have hdrop : cs.drop (k - 1) = (c :: cs).drop k := by
            cases k with
            | zero => omega
            | succ k => simp
          rw [hdrop]
          exact List.take_append_drop k (c :: cs)
      · obtain ⟨gaps, hg1, hg2⟩ := ih cs hcs
        cases gaps with
        | nil => simp at hg1
        | cons g gs =>
          refine ⟨(c :: g) :: gs, ?_, ?_⟩
          · simp only [scanAux]
            rw [if_neg hpc]
            simpa using hg1
          · simp only [scanAux]
            rw [if_neg hpc, glue_cons_char, hg2]

theorem re_findall_decomp (k : Nat) (p : List Char → Bool) (hk : 1 ≤ k)
    (hp : ∀ t, p t = true → t.length = k) (l : List Char) :
    ∃ gaps : List (List Char),
      gaps.length = (re_findall k p l).length + 1 ∧
      glue gaps (re_findall k p l) = l :=
  scanAux_decomp k p hk hp l.length l le_rfl

theorem splitOnChar_ne_nil (sep : Char) : ∀ l : List Char, splitOnChar sep l ≠ [] := by
  intro l
  cases l with
  | nil => simp [splitOnChar]
  | cons c cs =>
    by_cases hc : c = sep
    · simp [splitOnChar, hc]
    · simp only [splitOnChar, if_neg hc]
      cases splitOnChar sep cs <;> simp

/-- Fields produced by the split never contain the separator: a separator
character is always a field boundary. -/
theorem mem_splitOnChar_not_sep (sep : Char) :
    ∀ l f, f ∈ splitOnChar sep l → sep ∉ f := by
  intro l
  induction l with
  | nil =>
    intro f hf
    simp [splitOnChar] at hf
    simp [hf]
  | cons c cs ih =>
    intro f hf
    by_cases hc : c = sep
    · simp only [splitOnChar, if_pos hc] at hf
      rcases List.mem_cons.mp hf with h | h
      · simp [h]
      · exact ih f h
    · simp only [splitOnChar, if_neg hc] at hf
      cases hsp : splitOnChar sep cs with
      | nil => exact absurd hsp (splitOnChar_ne_nil sep cs)
      | cons g gs =>
        rw [hsp] at hf
        rcases List.mem_cons.mp hf with h | h
        · subst h
          intro hmem
          rcases List.mem_cons.mp hmem with h | h
          · exact hc h.symm
          · exact ih g (hsp ▸ List.mem_cons_self g gs) h
        · exact ih f (hsp ▸ List.mem_cons_of_mem g h)

/-- Joining the fields with the separator recovers the original line: the split
loses nothing and honors every separator occurrence. -/
theorem joinOnChar_splitOnChar (sep : Char) :
    ∀ l : List Char, joinOnChar sep (splitOnChar sep l) = l := by
  intro l
  induction l with
  | nil => simp [splitOnChar, joinOnChar]
  | cons c cs ih =>
    by_cases hc : c = sep
    · simp only [splitOnChar, if_pos hc]
      cases hsp : splitOnChar sep cs with
      | nil => exact absurd hsp (splitOnChar_ne_nil sep cs)
      | cons g gs =>
        rw [hsp] at ih
        simp [joinOnChar, ih, hc]
    · simp only [splitOnChar, if_neg hc]
      cases hsp : splitOnChar sep cs with
      | nil => exact absurd hsp (splitOnChar_ne_nil sep cs)
      | cons g gs =>
        rw [hsp] at ih
        cases gs with
        | nil => simpa [joinOnChar] using ih
        | cons g2 gs2 => simpa [joinOnChar] using ih

/-- A string matching the code surface pattern is `AZMAR-` plus three digits. -/
theorem isCodePat_shape (t : List Char) (h : isCodePat t = true) :
    ∃ a b c : Char, a.isDigit = true ∧ b.isDigit = true ∧ c.isDigit = true ∧
      t = ['A', 'Z', 'M', 'A', 'R', '-', a, b, c] := by
  unfold isCodePat at h
  split at h
  case _ a b c =>
    simp only [Bool.and_eq_true] at h
    exact ⟨a, b, c, h.1.1, h.1.2, h.2, rfl⟩
  case _ => simp at h

/- ### Claim theorems -/

/-- C1: Every element of the sequence returned by `extract_journal_dates`
matches the surface pattern two digits, slash, two digits, slash, four digits,
and is calendar-valid as month/day/year under Gregorian rules: month in 1-12
and day valid for that month and year (leap years included); a candidate that
matches the pattern but fails calendar validation (`strptime` rejects it) does
not appear in the output. -/
theorem extract_journal_dates_output_valid (s t : List Char)
    (h : t ∈ extract_journal_dates s) :
    isDatePat t = true ∧ (strptime_mdY t).isSome = true ∧
    1 ≤ monthOf t ∧ monthOf t ≤ 12 ∧
    1 ≤ dayOf t ∧ dayOf t ≤ daysInMonth (monthOf t) (yearOf t) := by
  rw [extract_eq_filter] at h
  have hmem : t ∈ re_findall 10 isDatePat s := (List.mem_filter.mp h).1
  have hsome : (strptime_mdY t).isSome = true := by
    simpa using (List.mem_filter.mp h).2
  have hpat := mem_re_findall 10 isDatePat s t hmem
  have hb := strptime_isSome_bounds t hsome
  exact ⟨hpat, hsome, hb.1, hb.2.1, hb.2.2.1, hb.2.2.2.1⟩

theorem extract_journal_dates_output_valid_witness :
    isDatePat "01/13/2020".toList = true ∧
    (strptime_mdY "01/13/2020".toList).isSome = true ∧
    1 ≤ monthOf "01/13/2020".toList ∧ monthOf "01/13/2020".toList ≤ 12 ∧
    1 ≤ dayOf "01/13/2020".toList ∧
    dayOf "01/13/2020".toList ≤
      daysInMonth (monthOf "01/13/2020".toList) (yearOf "01/13/2020".toList) :=
  extract_journal_dates_output_valid "13/01/2020 and 01/13/2020".toList
    "01/13/2020".toList (by decide)

/-- C2: The sequence returned by `extract_journal_dates` is an order-preserving
subsequence of the left-to-right non-overlapping raw matches of the surface
pattern (`found_dates`), with no deduplication: a repeated identical valid date
appears once per occurrence (its count in the output equals its count among the
raw matches). -/
theorem extract_journal_dates_subseq_of_matches (s : List Char) :
    (extract_journal_dates s).Sublist (found_dates s) ∧
    ∀ t : List Char,
      List.count t (extract_journal_dates s) =
        if (strptime_mdY t).isSome then List.count t (found_dates s) else 0 := by
  constructor
  · rw [extract_eq_filter]
    exact List.filter_sublist _
  · intro t
    rw [extract_eq_filter, count_filter_eq]

/-- C3: `extract_journal_dates` on "before 02/29/2024 and 02/30/2024 after"
returns exactly ["02/29/2024"] (Feb 29 valid in leap year 2024, Feb 30 never
valid), and on "13/01/2020 and 01/13/2020" returns exactly ["01/13/2020"]
(month 13 invalid, January 13 valid). -/
theorem extract_journal_dates_spec_examples :
    extract_journal_dates "before 02/29/2024 and 02/30/2024 after".toList
        = ["02/29/2024".toList] ∧
    extract_journal_dates "13/01/2020 and 01/13/2020".toList
        = ["01/13/2020".toList] := by
  decide

/-- C4: `extract_secret_codes` returns, in left-to-right order of appearance and
without deduplication or further validation, all non-overlapping substrings
consisting of the literal "AZMAR-" followed by exactly three digits: every
output token has that shape, the output tokens occur in the input in order
without overlap (glue decomposition), and on
"find AZMAR-007 near AZMAR-42X and AZMAR-999" the result is exactly
["AZMAR-007", "AZMAR-999"]. -/
theorem extract_secret_codes_spec (s : List Char) :
    (∀ t, t ∈ extract_secret_codes s →
       ∃ a b c : Char, a.isDigit = true ∧ b.isDigit = true ∧ c.isDigit = true ∧
         t = ['A', 'Z', 'M', 'A', 'R', '-', a, b, c]) ∧
    (∃ gaps : List (List Char),
       gaps.length = (extract_secret_codes s).length + 1 ∧
       glue gaps (extract_secret_codes s) = s) ∧
    extract_secret_codes "find AZMAR-007 near AZMAR-42X and AZMAR-999".toList
      = ["AZMAR-007".toList, "AZMAR-999".toList] := by
  refine ⟨?_, ?_, by decide⟩
  · intro t ht
    exact isCodePat_shape t (mem_re_findall 9 isCodePat s t ht)
  · exact re_findall_decomp 9 isCodePat (by omega) isCodePat_length s

theorem extract_secret_codes_spec_witness :
    ∃ a b c : Char, a.isDigit = true ∧ b.isDigit = true ∧ c.isDigit = true ∧
      "AZMAR-007".toList = ['A', 'Z', 'M', 'A', 'R', '-', a, b, c] :=
  (extract_secret_codes_spec
      "find AZMAR-007 near AZMAR-42X and AZMAR-999".toList).1
    "AZMAR-007".toList (by decide)

/-- C5: `extract_journal_dates` never surfaces an error: the whole computation
is the total scan-then-filter below (the `ValueError` of a failed `strptime` is
caught and turned into skipping), so a candidate failing calendar validation is
silently absent from the result rather than raised to the caller. -/
theorem extract_journal_dates_total_filtering (s : List Char) :
    extract_journal_dates s =
      (found_dates s).filter (fun d => (strptime_mdY d).isSome) ∧
    ∀ t : List Char, strptime_mdY t = none → t ∉ extract_journal_dates s := by
  refine ⟨extract_eq_filter s, ?_⟩
  intro t ht hmem
  rw [extract_eq_filter] at hmem
  have hp := (List.mem_filter.mp hmem).2
  simp [ht] at hp

theorem extract_journal_dates_total_filtering_witness :
    strptime_mdY "02/30/2024".toList = none ∧
    "02/30/2024".toList ∉
      extract_journal_dates "before 02/29/2024 and 02/30/2024 after".toList :=
  ⟨by decide,
   (extract_journal_dates_total_filtering
       "before 02/29/2024 and 02/30/2024 after".toList).2
     "02/30/2024".toList (by decide)⟩

/-- C6: For a path that does not exist on the (modelled) filesystem, both
`load_artifact_data` and `load_location_notes` fail with `FileNotFound` rather
than returning a table. -/
theorem loaders_fileNotFound (fs : FS) (path1 path2 : String)
    (h1 : fs path1 = none) (h2 : fs path2 = none) :
    load_artifact_data fs path1 = .error (.fileNotFound path1) ∧
    load_location_notes fs path2 = .error (.fileNotFound path2) := by
  constructor
  · simp [load_artifact_data, pd_read_excel, h1]
  · simp [load_location_notes, pd_read_csv_tab, h2]

theorem loaders_fileNotFound_witness :
    load_artifact_data (fun _ => none : FS) "artifacts.xlsx"
        = .error (.fileNotFound "artifacts.xlsx") ∧
    load_location_notes (fun _ => none : FS) "locations.tsv"
        = .error (.fileNotFound "locations.tsv") :=
  loaders_fileNotFound (fun _ => none) "artifacts.xlsx" "locations.tsv" rfl rfl

/-- C7: `load_location_notes` parses its file as tab-delimited records: the
first line is the column header, every subsequent line is a data row split on
the tab character, and there is no quoting or escaping support - a field never
contains a tab (a literal tab is always a field separator) and rejoining the
fields with tabs recovers the line; on the spec's example file with header
"name,x,y" and row "Cave,1,2" (tab-separated) it yields exactly that table. -/
theorem load_location_notes_tab_delimited (fs : FS) (path : String)
    (content : List Char) (h : fs path = some (FileData.text content)) :
    (∀ line f, f ∈ splitOnChar '\t' line → '\t' ∉ f) ∧
    (∀ line : List Char, joinOnChar '\t' (splitOnChar '\t' line) = line) ∧
    (∀ hline rest, splitOnChar '\n' content = hline :: rest →
       load_location_notes fs path =
         .ok ⟨splitOnChar '\t' hline, rest.map (splitOnChar '\t')⟩) ∧
    load_location_notes fsTSV "locations.tsv" =
      .ok ⟨["name".toList, "x".toList, "y".toList],
           [["Cave".toList, "1".toList, "2".toList]]⟩ := by
  refine ⟨mem_splitOnChar_not_sep '\t', joinOnChar_splitOnChar '\t', ?_, rfl⟩
  intro hline rest hsplit
  simp [load_location_notes, pd_read_csv_tab, h, parseTSV, hsplit]

theorem load_location_notes_tab_delimited_witness :
    joinOnChar '\t' (splitOnChar '\t' "Cave\t1\t2".toList) = "Cave\t1\t2".toList :=
  (load_location_notes_tab_delimited fsTSV "locations.tsv"
      "name\tx\ty\nCave\t1\t2".toList rfl).2.1 "Cave\t1\t2".toList

/-- C8: `load_artifact_data` selects the sheet named exactly "Main Chamber"
(case-sensitive exact match: a sheet with any other name is skipped), discards
the first 3 rows of that sheet, takes the next row as the column header and all
subsequent rows as data rows, and fails with `SheetNotFound` when no sheet
named "Main Chamber" exists. -/
theorem load_artifact_data_sheet_selection (fs : FS) (path : String)
    (sheets : List (String × List (List (List Char))))
    (h : fs path = some (FileData.workbook sheets)) :
    (findSheet "Main Chamber" sheets = none →
       load_artifact_data fs path = .error (.sheetNotFound "Main Chamber")) ∧
    (∀ rows, findSheet "Main Chamber" sheets = some rows →
       load_artifact_data fs path =
         match rows.drop 3 with
         | [] => .ok ⟨[], []⟩
         | hrow :: rest => .ok ⟨hrow, rest⟩) ∧
    (∀ (n : String) (rs : List (List (List Char))) rest2, n ≠ "Main Chamber" →
       findSheet "Main Chamber" ((n, rs) :: rest2) = findSheet "Main Chamber" rest2) := by
  refine ⟨?_, ?_, ?_⟩
  · intro hn
    simp [load_artifact_data, pd_read_excel, h, hn]
  · intro rows hr
    cases hdrop : rows.drop 3 with
    | nil => simp [load_artifact_data, pd_read_excel, h, hr, hdrop]
    | cons hrow rest => simp [load_artifact_data, pd_read_excel, h, hr, hdrop]
  · intro n rs rest2 hn
    simp [findSheet, hn]

theorem load_artifact_data_sheet_selection_witness :
    load_artifact_data fsXLSX "artifacts.xlsx" =
      Except.ok ⟨["name".toList, "age".toList], [["idol".toList, "3000".toList]]⟩ :=
  (load_artifact_data_sheet_selection fsXLSX "artifacts.xlsx"
      [("Lobby", []), ("Main Chamber", mainChamberRows)] rfl).2.1
    mainChamberRows rfl

/-- C9: Both extractors are deterministic pure functions: two invocations on the
same text yield identical sequences; the embedding carries no state, matching
the source, whose extractors read nothing but their argument. -/
theorem extractors_deterministic (s : List Char) :
    (runDatesTwice s).1 = (runDatesTwice s).2 ∧
    (runCodesTwice s).1 = (runCodesTwice s).2 :=
  ⟨rfl, rfl⟩

/-- C10: The secret-code scan does not check what follows the matched digits:
when "AZMAR-" is followed by four (or more) digits, the token "AZMAR-" plus the
first three digits is returned (the scan then resumes at the fourth digit)
rather than the occurrence being excluded; in particular on "AZMAR-1234" the
result is ["AZMAR-123"]. -/
theorem extract_secret_codes_longer_digit_run (a b c d : Char) (rest : List Char)
    (ha : a.isDigit = true) (hb : b.isDigit = true) (hc : c.isDigit = true)
    (hd : d.isDigit = true) :
    extract_secret_codes
        ('A' :: 'Z' :: 'M' :: 'A' :: 'R' :: '-' :: a :: b :: c :: d :: rest) =
      ['A', 'Z', 'M', 'A', 'R', '-', a, b, c] :: extract_secret_codes (d :: rest) ∧
    extract_secret_codes "AZMAR-1234".toList = ["AZMAR-123".toList] := by
  constructor
  · unfold extract_secret_codes
    rw [re_findall_cons]
    have htake :
        ('A' :: 'Z' :: 'M' :: 'A' :: 'R' :: '-' :: a :: b :: c :: d :: rest).take 9
          = ['A', 'Z', 'M', 'A', 'R', '-', a, b, c] := rfl
    have hpat :
        isCodePat
          (('A' :: 'Z' :: 'M' :: 'A' :: 'R' :: '-' :: a :: b :: c :: d :: rest).take 9)
          = true := by
      rw [htake]
      simp [isCodePat, ha, hb, hc]
    rw [if_pos hpat, htake]
    have hdrop :
        ('Z' :: 'M' :: 'A' :: 'R' :: '-' :: a :: b :: c :: d :: rest).drop (9 - 1)
          = d :: rest := rfl
    rw [hdrop]
  · decide

theorem extract_secret_codes_longer_digit_run_witness :
    extract_secret_codes
        ('A' :: 'Z' :: 'M' :: 'A' :: 'R' :: '-' :: '1' :: '2' :: '3' :: '4' :: []) =
      ['A', 'Z', 'M', 'A', 'R', '-', '1', '2', '3'] :: extract_secret_codes ['4'] ∧
    extract_secret_codes "AZMAR-1234".toList = ["AZMAR-123".toList] :=
  extract_secret_codes_longer_digit_run '1' '2' '3' '4' []
    (by decide) (by decide) (by decide) (by decide)

end Adventure
